import Mathlib

/-!
Verification of `meshgraphnets/cloth_model.py` (DeformingPlate model).

The file shallow-embeds the module as pure Lean functions over exact
rationals.  Tensors become lists of rows (`List (List ℚ)`); the mutable
Sonnet module state (the three normalizers' running statistics) becomes an
explicit `Model` record threaded through each operation.  TensorFlow's
`tf.norm` takes a square root, which has no exact rational value in
general, so the square-root function is an explicit parameter `sq`; the
witnesses instantiate it with `Rat.sqrt`, which is exact on the
perfect-square inputs they use.  `tf.reduce_mean` over an empty selection
produces NaN in TensorFlow; the embedding models the mean of a masked list
as an `Option`, with `none` standing for that undefined/NaN result.

External collaborators of the module:
* `common.triangles_to_edges` and the learned graph network are not part
  of the module's logic; they stay abstract parameters (`t2e`, `learned`)
  and every theorem quantifies over them.
* `normalization.Normalizer` and `common.NodeType` are modelled from the
  spec (their sources are outside this excerpt); see their doc comments.
-/

namespace ClothModel

/-- Elementwise sum of two rows (`tf` addition of equal-shaped tensors). -/
def vadd (a b : List ℚ) : List ℚ := List.zipWith (· + ·) a b

/-- Elementwise difference of two rows (`tf` subtraction). -/
def vsub (a b : List ℚ) : List ℚ := List.zipWith (· - ·) a b

/-- Sum of squares of the entries of a row. -/
def sumSq (a : List ℚ) : ℚ := (a.map (fun x => x * x)).sum

/-- `tf.norm(row)`: Euclidean norm, i.e. the square root of the sum of
squares; `sq` is the square-root function parameter. -/
def rowNorm (sq : ℚ → ℚ) (a : List ℚ) : ℚ := sq (sumSq a)

/-- `tf.gather(xs, idx)` along axis 0: pick the rows named by `idx`.
Indices are valid by the caller contract; an out-of-range index yields
the empty row. -/
def gather (xs : List (List ℚ)) (idx : List ℕ) : List (List ℚ) :=
  idx.map (fun i => xs.getD i [])

/-- `tf.one_hot(i, depth)`: length-`depth` row with a 1 in position `i`
and 0 elsewhere (all zeros when `i ≥ depth`, as in TensorFlow). -/
def oneHot (i : ℕ) (depth : ℕ) : List ℚ :=
  (List.range depth).map (fun j => if i = j then 1 else 0)

/-- `tf.reduce_mean` of a vector, as an `Option`: TensorFlow returns NaN
on an empty reduction, modelled here as `none`. -/
def reduceMean (l : List ℚ) : Option ℚ :=
  if l.isEmpty then none else some (l.sum / l.length)

/-- `error[loss_mask]` (boolean masking): keep the entries of `l` whose
mask entry is true. -/
def booleanMask (l : List ℚ) (mask : List Bool) : List ℚ :=
  ((l.zip mask).filter (fun p => p.2)).map (fun p => p.1)

/-- Modelled from the spec: `common.NodeType` (source outside this
excerpt).  The spec fixes only that node types are `NodeType.SIZE`
categorical labels of which `NORMAL` is one; the concrete numerals are
representative constants. -/
def NodeTypeSIZE : ℕ := 9

/-- Modelled from the spec: the `NORMAL` category of `common.NodeType`. -/
def NodeTypeNORMAL : ℕ := 0

/-- Modelled from the spec: the running statistics of a
`normalization.Normalizer` (source outside this excerpt) — "running
statistics (mean, variance, count)", kept as a count and per-component
accumulated sums and sums of squares from which mean and variance are
derived. -/
structure Normalizer where
  size : ℕ
  accCount : ℚ
  accSum : List ℚ
  accSumSq : List ℚ
deriving Repr, DecidableEq

/-- A fresh normalizer of width `size` with empty statistics. -/
def Normalizer.make (size : ℕ) : Normalizer :=
  ⟨size, 0, List.replicate size 0, List.replicate size 0⟩

/-- Column-wise sum of a batch of rows of width `size`. -/
def colSum (size : ℕ) (batch : List (List ℚ)) : List ℚ :=
  batch.foldl vadd (List.replicate size 0)

/-- Modelled from the spec: statistics accumulation of one batch — add
the batch's row count, column sums and column sums of squares to the
running statistics. -/
def Normalizer.accumulate (n : Normalizer) (batch : List (List ℚ)) : Normalizer :=
  { n with
    accCount := n.accCount + batch.length,
    accSum := vadd n.accSum (colSum n.size batch),
    accSumSq := vadd n.accSumSq (colSum n.size (batch.map (fun r => r.map (fun x => x * x)))) }

/-- Running per-component mean (safe against a zero count). -/
def Normalizer.mean (n : Normalizer) : List ℚ :=
  n.accSum.map (fun s => s / max n.accCount 1)

/-- Running per-component variance. -/
def Normalizer.variance (n : Normalizer) : List ℚ :=
  List.zipWith (fun s2 m => s2 / max n.accCount 1 - m * m) (n.accSumSq.map (fun s => s / max n.accCount 1)) n.mean

/-- Per-component standard deviation, via the square-root parameter. -/
def Normalizer.std (sq : ℚ → ℚ) (n : Normalizer) : List ℚ :=
  n.variance.map sq

/-- Normalize one row to zero mean and unit variance. -/
def Normalizer.normalizeRow (sq : ℚ → ℚ) (n : Normalizer) (row : List ℚ) : List ℚ :=
  List.zipWith (fun x ms => (x - ms.1) / ms.2) row (n.mean.zip (n.std sq))

/-- Modelled from the spec: the normalizer's forward transform
`forward(features, accumulate)` — accumulate the batch into the running
statistics when `accumulate` is set, and return the batch normalized by
the (updated) statistics together with the new state. -/
def Normalizer.forward (sq : ℚ → ℚ) (n : Normalizer) (batch : List (List ℚ))
    (accumulate : Bool) : List (List ℚ) × Normalizer :=
  let n' := if accumulate then n.accumulate batch else n
  (batch.map (n'.normalizeRow sq), n')

/-- Modelled from the spec: calling the normalizer with no `accumulate`
argument (as the loss path does on the output normalizer) always
accumulates statistics. -/
def Normalizer.forwardDefault (sq : ℚ → ℚ) (n : Normalizer) (batch : List (List ℚ)) :
    List (List ℚ) × Normalizer :=
  n.forward sq batch true

/-- Modelled from the spec: the normalizer's inverse transform — undo the
scaling (`y * std + mean` per component) without touching statistics. -/
def Normalizer.inverseRow (sq : ℚ → ℚ) (n : Normalizer) (row : List ℚ) : List ℚ :=
  List.zipWith (fun y ms => y * ms.2 + ms.1) row (n.mean.zip (n.std sq))

/-- Inverse transform of a whole batch. -/
def Normalizer.inverse (sq : ℚ → ℚ) (n : Normalizer) (batch : List (List ℚ)) : List (List ℚ) :=
  batch.map (n.inverseRow sq)

/-- One input record: the per-step mesh state fed to the model.
`target_world_pos` embeds the `target|world_pos` key (training only). -/
structure Inputs where
  world_pos : List (List ℚ)
  mesh_pos : List (List ℚ)
  node_type : List (List ℕ)
  cells : List (List ℕ)
  target_world_pos : List (List ℚ)
deriving Repr, DecidableEq

/-- `core_model.EdgeSet`. -/
structure EdgeSet where
  name : String
  features : List (List ℚ)
  receivers : List ℕ
  senders : List ℕ
deriving Repr, DecidableEq

/-- `core_model.MultiGraph`. -/
structure MultiGraph where
  node_features : List (List ℚ)
  edge_sets : List EdgeSet
deriving Repr, DecidableEq

/-- The state of `Model`: the three normalizers created in `__init__`
(`output_normalizer` size 3, `node_normalizer` size 3 + NodeType.SIZE,
`edge_normalizer` size 8). -/
structure Model where
  output_normalizer : Normalizer
  node_normalizer : Normalizer
  edge_normalizer : Normalizer
deriving Repr, DecidableEq

/-- `Model.__init__`: fresh normalizers of the configured widths. -/
def Model.make : Model :=
  ⟨Normalizer.make 3, Normalizer.make (3 + NodeTypeSIZE), Normalizer.make 8⟩

/-- The pre-normalization node feature matrix of `_build_graph`:
`tf.zeros_like(world_pos)` (zero velocity) concatenated per node with the
one-hot encoding of `node_type[:, 0]` over `NodeType.SIZE` categories. -/
def nodeFeatures (inputs : Inputs) : List (List ℚ) :=
  let velocity := inputs.world_pos.map (fun r => r.map (fun _ => 0))
  let node_type := inputs.node_type.map (fun r => oneHot (r.headD 0) NodeTypeSIZE)
  List.zipWith (· ++ ·) velocity node_type

/-- The pre-normalization edge feature matrix of `_build_graph`: per edge,
`relative_world_pos ++ [its norm] ++ relative_mesh_pos ++ [its norm]`
where the relative positions are gathered differences sender − receiver. -/
def edgeFeatures (sq : ℚ → ℚ) (inputs : Inputs) (senders receivers : List ℕ) :
    List (List ℚ) :=
  let relative_world_pos :=
    List.zipWith vsub (gather inputs.world_pos senders) (gather inputs.world_pos receivers)
  let relative_mesh_pos :=
    List.zipWith vsub (gather inputs.mesh_pos senders) (gather inputs.mesh_pos receivers)
  List.zipWith (fun w m => w ++ [rowNorm sq w] ++ m ++ [rowNorm sq m])
    relative_world_pos relative_mesh_pos

/-- `Model._build_graph`: build the node and edge features, obtain the
sender/receiver arrays from the converter `t2e`, normalize both feature
matrices with the call's training flag, and assemble the `MultiGraph`
with the single `"mesh_edges"` edge set.  Returns the graph and the
updated model state. -/
def Model.build_graph (sq : ℚ → ℚ) (t2e : List (List ℕ) → List ℕ × List ℕ)
    (m : Model) (inputs : Inputs) (is_training : Bool) : MultiGraph × Model :=
  let node_features := nodeFeatures inputs
  let sr := t2e inputs.cells
  let edge_features := edgeFeatures sq inputs sr.1 sr.2
  let ef := m.edge_normalizer.forward sq edge_features is_training
  let mesh_edges : EdgeSet :=
    { name := "mesh_edges", features := ef.1, receivers := sr.2, senders := sr.1 }
  let nf := m.node_normalizer.forward sq node_features is_training
  (⟨nf.1, [mesh_edges]⟩,
   { m with edge_normalizer := ef.2, node_normalizer := nf.2 })

/-- `Model._update`: inverse-normalize the per-node network output through
the output normalizer to a displacement and add it to the current
position. -/
def Model.update (sq : ℚ → ℚ) (m : Model) (inputs : Inputs)
    (per_node_network_output : List (List ℚ)) : List (List ℚ) :=
  let displacement := m.output_normalizer.inverse sq per_node_network_output
  List.zipWith vadd inputs.world_pos displacement

/-- `Model._build` (Predict): build the graph in non-training mode, run
the learned model, and integrate its output via `_update`.  Returns the
new positions and the model state after the call. -/
def Model.build (sq : ℚ → ℚ) (t2e : List (List ℕ) → List ℕ × List ℕ)
    (learned : MultiGraph → List (List ℚ)) (m : Model) (inputs : Inputs) :
    List (List ℚ) × Model :=
  let gs := Model.build_graph sq t2e m inputs false
  let per_node_network_output := learned gs.1
  (Model.update sq gs.2 inputs per_node_network_output, gs.2)

/-- `Model.loss` generalized over the training flag passed to the graph
build (the source passes `True`): build the graph, run the learned model,
normalize the target displacement through the output normalizer with no
accumulate argument, and return the mean over NORMAL-type nodes of the
per-node summed squared error, together with the new state. -/
def Model.lossAux (sq : ℚ → ℚ) (t2e : List (List ℕ) → List ℕ × List ℕ)
    (learned : MultiGraph → List (List ℚ)) (m : Model) (inputs : Inputs)
    (graph_flag : Bool) : Option ℚ × Model :=
  let gs := Model.build_graph sq t2e m inputs graph_flag
  let network_output := learned gs.1
  let cur_position := inputs.world_pos
  let target_position := inputs.target_world_pos
  let target_displacement := List.zipWith vsub target_position cur_position
  let tn := gs.2.output_normalizer.forwardDefault sq target_displacement
  let loss_mask := inputs.node_type.map (fun r => r.headD 0 == NodeTypeNORMAL)
  let error := List.zipWith (fun t o => sumSq (vsub t o)) tn.1 network_output
  let loss := reduceMean (booleanMask error loss_mask)
  (loss, { gs.2 with output_normalizer := tn.2 })

/-- `Model.loss`: the source hard-codes `is_training=True` for the graph
build. -/
def Model.loss (sq : ℚ → ℚ) (t2e : List (List ℕ) → List ℕ × List ℕ)
    (learned : MultiGraph → List (List ℚ)) (m : Model) (inputs : Inputs) :
    Option ℚ × Model :=
  Model.lossAux sq t2e learned m inputs true

/-- Spec-side mirror of the loss mask, for comparison with the
implementation: the indices, among `n` nodes, whose `node_type` first
column equals the NORMAL category. -/
def lossSpecNormalIndices (inputs : Inputs) (n : ℕ) : List ℕ :=
  (List.range n).filter (fun i => (inputs.node_type.getD i []).headD 0 == NodeTypeNORMAL)

/-- Spec-side mirror of the per-node loss term: the squared difference,
summed over components, between node `i`'s normalized target displacement
(`target|world_pos − world_pos` through the output normalizer, which has
accumulated the displacement batch) and node `i`'s raw model output. -/
def lossSpecError (sq : ℚ → ℚ) (t2e : List (List ℕ) → List ℕ × List ℕ)
    (learned : MultiGraph → List (List ℚ)) (m : Model) (inputs : Inputs) (i : ℕ) : ℚ :=
  sumSq (vsub
    ((m.output_normalizer.accumulate
        (List.zipWith vsub inputs.target_world_pos inputs.world_pos)).normalizeRow sq
      (vsub (inputs.target_world_pos.getD i []) (inputs.world_pos.getD i [])))
    ((learned (Model.build_graph sq t2e m inputs true).1).getD i []))

/-! ### Helper lemmas -/

/-- Indexing a `zipWith` below both lengths picks the images of the two
indexed entries. -/
theorem getD_zipWith {α β γ : Type} (f : α → β → γ) (as : List α) (bs : List β)
    (i : ℕ) (ha : i < as.length) (hb : i < bs.length) (da : α) (db : β) (dc : γ) :
    (List.zipWith f as bs).getD i dc = f (as.getD i da) (bs.getD i db) := by
  rw [List.getD_eq_getElem _ _ (by simp [List.length_zipWith]; omega),
    List.getElem_zipWith, List.getD_eq_getElem _ _ ha, List.getD_eq_getElem _ _ hb]

/-- Indexing a `map` below the length picks the image of the indexed
entry. -/
theorem getD_map {α β : Type} (f : α → β) (l : List α) (i : ℕ)
    (h : i < l.length) (da : α) (db : β) :
    (l.map f).getD i db = f (l.getD i da) := by
  rw [List.getD_eq_getElem _ _ (by simpa), List.getElem_map, List.getD_eq_getElem _ _ h]

/-- A boolean mask whose entries are all false selects nothing. -/
theorem booleanMask_of_all_false (l : List ℚ) (mask : List Bool)
    (h : ∀ b ∈ mask, b = false) : booleanMask l mask = [] := by
  unfold booleanMask
  rw [List.filter_eq_nil_iff.mpr, List.map_nil]
  intro p hp
  have := (List.of_mem_zip hp).2
  simp [h p.2 this]

/-- Boolean masking is selection of the index positions whose mask entry
is true. -/
theorem booleanMask_eq_filter_range (err : List ℚ) (mask : List Bool) :
    booleanMask err mask =
      ((List.range (min err.length mask.length)).filter (fun i => mask.getD i false)).map
        (fun i => err.getD i 0) := by
  induction err generalizing mask with
  | nil => simp [booleanMask]
  | cons e es ih =>
    cases mask with
    | nil => simp [booleanMask]
    | cons b bs =>
      have hmin : min (e :: es).length (b :: bs).length = min es.length bs.length + 1 := by
        simp [List.length_cons, Nat.succ_min_succ]
      rw [hmin, List.range_succ_eq_map]
      cases b with
      | false =>
        simp only [booleanMask, List.zip_cons_cons, List.filter_cons] at ih ⊢
        simp [List.filter_map, Function.comp_def, List.getD_cons_zero, List.getD_cons_succ,
          Nat.succ_eq_add_one, List.getElem?_cons_succ, ih]
      | true =>
        simp only [booleanMask, List.zip_cons_cons, List.filter_cons] at ih ⊢
        simp [List.filter_map, Function.comp_def, List.getD_cons_zero, List.getD_cons_succ,
          Nat.succ_eq_add_one, List.getElem?_cons_succ, ih]

/-! ### Claims -/

/-- C10: Predict's output does not depend on the `target|world_pos`
entry: two input records agreeing on `world_pos`, `mesh_pos`,
`node_type` and `cells` but with arbitrary (different) target fields
give identical Predict results and final states, for every converter,
learned model, square root and starting normalizer state. -/
theorem predict_ignores_target (sq : ℚ → ℚ) (t2e : List (List ℕ) → List ℕ × List ℕ)
    (learned : MultiGraph → List (List ℚ)) (m : Model)
    (wp mp : List (List ℚ)) (nt : List (List ℕ)) (cells : List (List ℕ))
    (t1 t2 : List (List ℚ)) :
    Model.build sq t2e learned m ⟨wp, mp, nt, cells, t1⟩ =
      Model.build sq t2e learned m ⟨wp, mp, nt, cells, t2⟩ := rfl

/-- C6: Predict never mutates normalizer state: one call returns the
starting state unchanged (the graph is built with `is_training = false`
and only the inverse transform of the output normalizer is used), and
hence any number of repeated calls leaves the state fixed. -/
theorem predict_preserves_normalizers (sq : ℚ → ℚ)
    (t2e : List (List ℕ) → List ℕ × List ℕ)
    (learned : MultiGraph → List (List ℚ)) (m : Model) (inputs : Inputs) :
    (Model.build sq t2e learned m inputs).2 = m ∧
      ∀ k : ℕ, (fun s => (Model.build sq t2e learned s inputs).2)^[k] m = m := by
  refine ⟨rfl, fun k => Function.iterate_fixed rfl k⟩

/-- C5: every loss call accumulates the target-displacement batch into
the output normalizer's running statistics, whatever training flag the
graph build uses: the final output normalizer is exactly the starting
one with the batch accumulated, so its count grows by the batch size. -/
theorem loss_accumulates_output_normalizer (sq : ℚ → ℚ)
    (t2e : List (List ℕ) → List ℕ × List ℕ)
    (learned : MultiGraph → List (List ℚ)) (m : Model) (inputs : Inputs)
    (graph_flag : Bool) :
    ((Model.lossAux sq t2e learned m inputs graph_flag).2).output_normalizer =
      m.output_normalizer.accumulate
        (List.zipWith vsub inputs.target_world_pos inputs.world_pos) ∧
    ((Model.lossAux sq t2e learned m inputs graph_flag).2).output_normalizer.accCount =
      m.output_normalizer.accCount +
        (List.zipWith vsub inputs.target_world_pos inputs.world_pos).length :=
  ⟨rfl, rfl⟩

/-- C9: the update step applies the inverse-normalized displacement to
every node uniformly: it is independent of `node_type` (no mask), and
each node's new position is its old position plus its inverse-normalized
network output row, whatever the node's type. -/
theorem update_has_no_node_type_mask (sq : ℚ → ℚ) (m : Model)
    (out wp mp tgt : List (List ℚ)) (nt nt' : List (List ℕ))
    (cells : List (List ℕ)) (i : ℕ) (h1 : i < wp.length) (h2 : i < out.length) :
    Model.update sq m ⟨wp, mp, nt, cells, tgt⟩ out =
      Model.update sq m ⟨wp, mp, nt', cells, tgt⟩ out ∧
    (Model.update sq m ⟨wp, mp, nt, cells, tgt⟩ out).getD i [] =
      vadd (wp.getD i []) (m.output_normalizer.inverseRow sq (out.getD i [])) := by
  constructor
  · rfl
  · show (List.zipWith vadd wp (m.output_normalizer.inverse sq out)).getD i [] = _
    rw [getD_zipWith vadd wp _ i h1 (by simpa [Normalizer.inverse]) [] [] []]
    unfold Normalizer.inverse
    rw [getD_map _ _ i h2 []]

/-- C9 witness: concrete two-node instance with non-NORMAL node types. -/
theorem update_has_no_node_type_mask_witness :
    (0 : ℕ) < 2 ∧ (0 : ℕ) < 2 ∧
    (Model.update (fun q => q) Model.make ⟨[[1, 1, 1], [2, 2, 2]], [], [[3], [4]], [], []⟩
        [[1, 0, 0], [0, 1, 0]]).getD 0 [] =
      vadd ([[1, 1, 1], [2, 2, 2]].getD 0 [])
        (Model.make.output_normalizer.inverseRow (fun q => q) ([[1, 0, 0], [0, 1, 0]].getD 0 [])) :=
  ⟨by decide, by decide,
    (update_has_no_node_type_mask (fun q => q) Model.make
      [[1, 0, 0], [0, 1, 0]] [[1, 1, 1], [2, 2, 2]] [] [] [[3], [4]] [[5], [5]] []
      0 (by decide) (by decide)).2⟩

/-- C7: when every node's type differs from NORMAL the loss mask selects
no node, the final reduction is a mean over an empty selection, and the
loss is the undefined value `none` (TensorFlow's NaN); no sentinel is
substituted. -/
theorem loss_all_non_normal_is_undefined (sq : ℚ → ℚ)
    (t2e : List (List ℕ) → List ℕ × List ℕ)
    (learned : MultiGraph → List (List ℚ)) (m : Model) (inputs : Inputs)
    (h : ∀ r ∈ inputs.node_type, r.headD 0 ≠ NodeTypeNORMAL) :
    (Model.loss sq t2e learned m inputs).1 = none := by
  have hmask : ∀ b ∈ inputs.node_type.map (fun r => r.headD 0 == NodeTypeNORMAL),
      b = false := by
    intro b hb
    rcases List.mem_map.mp hb with ⟨r, hr, rfl⟩
    simpa using h r hr
  simp only [Model.loss, Model.lossAux]
  rw [booleanMask_of_all_false _ _ hmask]
  rfl

/-- C7 witness: a two-node mesh whose nodes are all of non-NORMAL types. -/
theorem loss_all_non_normal_is_undefined_witness :
    (∀ r ∈ ([[1], [4]] : List (List ℕ)), r.headD 0 ≠ NodeTypeNORMAL) ∧
    (Model.loss (fun q => q) (fun _ => ([], [])) (fun _ => []) Model.make
      ⟨[[0, 0, 0], [1, 0, 0]], [[0, 0, 0], [1, 0, 0]], [[1], [4]], [[0, 1]],
        [[0, 0, 0], [1, 0, 0]]⟩).1 = none :=
  ⟨by decide,
    loss_all_non_normal_is_undefined (fun q => q) (fun _ => ([], [])) (fun _ => [])
      Model.make _ (by decide)⟩

/-- C4: the pre-normalization node feature row of each node is the
3-component zero velocity placeholder followed by the one-hot encoding of
the first `node_type` column over `NodeType.SIZE` categories, has width
3 + NodeType.SIZE, and the graph's node features are this matrix passed
through the node normalizer with the call's training flag. -/
theorem node_features_spec (sq : ℚ → ℚ) (t2e : List (List ℕ) → List ℕ × List ℕ)
    (m : Model) (inputs : Inputs) (flag : Bool) (i : ℕ)
    (h3 : ∀ r ∈ inputs.world_pos, r.length = 3)
    (hi : i < inputs.world_pos.length) (hi' : i < inputs.node_type.length) :
    (nodeFeatures inputs).getD i [] =
      List.replicate 3 0 ++ oneHot ((inputs.node_type.getD i []).headD 0) NodeTypeSIZE ∧
    ((nodeFeatures inputs).getD i []).length = 3 + NodeTypeSIZE ∧
    (Model.build_graph sq t2e m inputs flag).1.node_features =
      (m.node_normalizer.forward sq (nodeFeatures inputs) flag).1 := by
  have hrow : (nodeFeatures inputs).getD i [] =
      List.replicate 3 0 ++ oneHot ((inputs.node_type.getD i []).headD 0) NodeTypeSIZE := by
    unfold nodeFeatures
    rw [getD_zipWith _ _ _ i (by simpa) (by simpa) [] [] [],
      getD_map _ _ i hi [], getD_map _ _ i hi' []]
    have hmem : inputs.world_pos.getD i [] ∈ inputs.world_pos := by
      rw [List.getD_eq_getElem _ _ hi]; exact List.getElem_mem hi
    rw [List.map_const', h3 _ hmem]
  refine ⟨hrow, ?_, rfl⟩
  rw [hrow]
  simp [oneHot]
  omega

/-- C4 witness: a single node of a non-zero type with a 3-component
position. -/
theorem node_features_spec_witness :
    (∀ r ∈ ([[7, 8, 9]] : List (List ℚ)), r.length = 3) ∧ (0 : ℕ) < 1 ∧ (0 : ℕ) < 1 ∧
    (nodeFeatures ⟨[[7, 8, 9]], [[0, 0, 0]], [[4, 2]], [], []⟩).getD 0 [] =
      List.replicate 3 0 ++
        oneHot ((([[4, 2]] : List (List ℕ)).getD 0 []).headD 0) NodeTypeSIZE :=
  ⟨by decide, by decide, by decide,
    (node_features_spec (fun q => q) (fun _ => ([], [])) Model.make
      ⟨[[7, 8, 9]], [[0, 0, 0]], [[4, 2]], [], []⟩ true 0
      (by decide) (by decide) (by decide)).1⟩

/-- C3: the built graph carries the single edge set `"mesh_edges"` whose
features are the edge normalizer applied to the pre-normalization edge
features and whose sender/receiver arrays are the converter's output;
and each pre-normalization edge feature vector is exactly the 8-scalar
concatenation `world_pos[s] − world_pos[r]`, its norm,
`mesh_pos[s] − mesh_pos[r]`, its norm. -/
theorem edge_set_and_features_spec (sq : ℚ → ℚ)
    (t2e : List (List ℕ) → List ℕ × List ℕ) (m : Model) (inputs : Inputs)
    (flag : Bool) (i : ℕ)
    (hs : i < (t2e inputs.cells).1.length) (hr : i < (t2e inputs.cells).2.length)
    (h3w : ∀ r ∈ inputs.world_pos, r.length = 3)
    (h3m : ∀ r ∈ inputs.mesh_pos, r.length = 3)
    (hsw : (t2e inputs.cells).1.getD i 0 < inputs.world_pos.length)
    (hrw : (t2e inputs.cells).2.getD i 0 < inputs.world_pos.length)
    (hsm : (t2e inputs.cells).1.getD i 0 < inputs.mesh_pos.length)
    (hrm : (t2e inputs.cells).2.getD i 0 < inputs.mesh_pos.length) :
    (Model.build_graph sq t2e m inputs flag).1.edge_sets =
      [{ name := "mesh_edges",
         features := (m.edge_normalizer.forward sq
           (edgeFeatures sq inputs (t2e inputs.cells).1 (t2e inputs.cells).2) flag).1,
         receivers := (t2e inputs.cells).2,
         senders := (t2e inputs.cells).1 }] ∧
    (edgeFeatures sq inputs (t2e inputs.cells).1 (t2e inputs.cells).2).getD i [] =
      vsub (inputs.world_pos.getD ((t2e inputs.cells).1.getD i 0) [])
          (inputs.world_pos.getD ((t2e inputs.cells).2.getD i 0) []) ++
        [rowNorm sq (vsub (inputs.world_pos.getD ((t2e inputs.cells).1.getD i 0) [])
          (inputs.world_pos.getD ((t2e inputs.cells).2.getD i 0) []))] ++
        vsub (inputs.mesh_pos.getD ((t2e inputs.cells).1.getD i 0) [])
          (inputs.mesh_pos.getD ((t2e inputs.cells).2.getD i 0) []) ++
        [rowNorm sq (vsub (inputs.mesh_pos.getD ((t2e inputs.cells).1.getD i 0) [])
          (inputs.mesh_pos.getD ((t2e inputs.cells).2.getD i 0) []))] ∧
    ((edgeFeatures sq inputs (t2e inputs.cells).1 (t2e inputs.cells).2).getD i []).length
      = 8 := by
  have hgw : ∀ j, j < inputs.world_pos.length →
      (inputs.world_pos.getD j []).length = 3 := by
    intro j hj
    refine h3w _ ?_
    rw [List.getD_eq_getElem _ _ hj]; exact List.getElem_mem hj
  have hgm : ∀ j, j < inputs.mesh_pos.length →
      (inputs.mesh_pos.getD j []).length = 3 := by
    intro j hj
    refine h3m _ ?_
    rw [List.getD_eq_getElem _ _ hj]; exact List.getElem_mem hj
  have hrow : (edgeFeatures sq inputs (t2e inputs.cells).1 (t2e inputs.cells).2).getD i [] =
      vsub (inputs.world_pos.getD ((t2e inputs.cells).1.getD i 0) [])
          (inputs.world_pos.getD ((t2e inputs.cells).2.getD i 0) []) ++
        [rowNorm sq (vsub (inputs.world_pos.getD ((t2e inputs.cells).1.getD i 0) [])
          (inputs.world_pos.getD ((t2e inputs.cells).2.getD i 0) []))] ++
        vsub (inputs.mesh_pos.getD ((t2e inputs.cells).1.getD i 0) [])
          (inputs.mesh_pos.getD ((t2e inputs.cells).2.getD i 0) []) ++
        [rowNorm sq (vsub (inputs.mesh_pos.getD ((t2e inputs.cells).1.getD i 0) [])
          (inputs.mesh_pos.getD ((t2e inputs.cells).2.getD i 0) []))] := by
    unfold edgeFeatures
    rw [getD_zipWith _ _ _ i (by simp [gather]; try omega) (by simp [gather]; try omega) [] [] [],
      getD_zipWith vsub _ _ i (by simp [gather]; try omega) (by simp [gather]; try omega) [] [] [],
      getD_zipWith vsub _ _ i (by simp [gather]; try omega) (by simp [gather]; try omega) [] [] []]
    unfold gather
    rw [getD_map _ _ i hs 0, getD_map _ _ i hr 0, getD_map _ _ i hs 0, getD_map _ _ i hr 0]
  refine ⟨rfl, hrow, ?_⟩
  have e1 := hgw _ hsw
  have e2 := hgw _ hrw
  have e3 := hgm _ hsm
  have e4 := hgm _ hrm
  rw [hrow]
  simp only [List.length_append, List.length_cons, List.length_nil, vsub,
    List.length_zipWith]
  omega

/-- C3 witness: a two-node segment with one edge in each direction read
off from a concrete converter. -/
theorem edge_set_and_features_spec_witness :
    (0 : ℕ) < 1 ∧
    ((edgeFeatures (fun q => q)
        ⟨[[0, 0, 0], [1, 2, 2]], [[0, 0, 0], [1, 0, 0]], [[0], [0]], [[0, 1]],
          [[0, 0, 0], [1, 2, 2]]⟩
        [1] [0]).getD 0 []).length = 8 :=
  ⟨by decide,
    (edge_set_and_features_spec (fun q => q) (fun _ => ([1], [0])) Model.make
      ⟨[[0, 0, 0], [1, 2, 2]], [[0, 0, 0], [1, 0, 0]], [[0], [0]], [[0, 1]],
        [[0, 0, 0], [1, 2, 2]]⟩ false 0
      (by decide) (by decide) (by decide) (by decide)
      (by decide) (by decide) (by decide) (by decide)).2.2⟩

/-- The inverse transform of a width-3 normalizer state sends a
3-component row to a 3-component row. -/
theorem inverseRow_length (sq : ℚ → ℚ) (nz : Normalizer) (row : List ℚ)
    (h1 : nz.accSum.length = 3) (h2 : nz.accSumSq.length = 3) (h3 : row.length = 3) :
    (nz.inverseRow sq row).length = 3 := by
  simp [Normalizer.inverseRow, Normalizer.mean, Normalizer.std, Normalizer.variance,
    List.length_zipWith, h1, h2, h3]

/-- C1: Predict returns `world_pos` plus the inverse-normalized learned
model output on the graph built in non-training mode, and (under the
shape contract) the result is a `[num_nodes, 3]` tensor. -/
theorem predict_spec (sq : ℚ → ℚ) (t2e : List (List ℕ) → List ℕ × List ℕ)
    (learned : MultiGraph → List (List ℚ)) (m : Model) (inputs : Inputs) (n : ℕ)
    (hc : m.output_normalizer.accSum.length = 3)
    (hc2 : m.output_normalizer.accSumSq.length = 3)
    (hw : inputs.world_pos.length = n)
    (hw3 : ∀ r ∈ inputs.world_pos, r.length = 3)
    (hl : (learned (Model.build_graph sq t2e m inputs false).1).length = n)
    (hl3 : ∀ r ∈ learned (Model.build_graph sq t2e m inputs false).1, r.length = 3) :
    (Model.build sq t2e learned m inputs).1 =
      List.zipWith vadd inputs.world_pos
        (m.output_normalizer.inverse sq
          (learned (Model.build_graph sq t2e m inputs false).1)) ∧
    (Model.build sq t2e learned m inputs).1.length = n ∧
    ∀ r ∈ (Model.build sq t2e learned m inputs).1, r.length = 3 := by
  refine ⟨rfl, ?_, ?_⟩
  · show (List.zipWith vadd inputs.world_pos
      (m.output_normalizer.inverse sq _)).length = n
    simp [List.length_zipWith, Normalizer.inverse, hw, hl]
  · intro r hr
    have hr' : r ∈ List.zipWith vadd inputs.world_pos
        (m.output_normalizer.inverse sq
          (learned (Model.build_graph sq t2e m inputs false).1)) := hr
    rcases List.mem_iff_getElem.mp hr' with ⟨j, hj, rfl⟩
    rw [List.getElem_zipWith]
    have hjw : j < inputs.world_pos.length := by
      simp [List.length_zipWith] at hj; omega
    have hjl : j < (learned (Model.build_graph sq t2e m inputs false).1).length := by
      simp [List.length_zipWith, Normalizer.inverse] at hj; omega
    have hji : j < (m.output_normalizer.inverse sq
        (learned (Model.build_graph sq t2e m inputs false).1)).length := by
      simpa [Normalizer.inverse]
    have hlen3 : ((m.output_normalizer.inverse sq
          (learned (Model.build_graph sq t2e m inputs false).1))[j]).length = 3 := by
      simp only [Normalizer.inverse]
      rw [List.getElem_map]
      exact inverseRow_length sq _ _ hc hc2 (hl3 _ (List.getElem_mem hjl))
    simp [vadd, List.length_zipWith, hlen3, hw3 _ (List.getElem_mem hjw)]

/-- C1 witness: one node at the origin, a constant learned model, fresh
normalizer state. -/
theorem predict_spec_witness :
    Model.make.output_normalizer.accSum.length = 3 ∧
    Model.make.output_normalizer.accSumSq.length = 3 ∧
    ([[0, 0, 0]] : List (List ℚ)).length = 1 ∧
    (∀ r ∈ ([[0, 0, 0]] : List (List ℚ)), r.length = 3) ∧
    (Model.build (fun q => q) (fun _ => ([], [])) (fun _ => [[1, 2, 3]]) Model.make
        ⟨[[0, 0, 0]], [[0, 0, 0]], [[0]], [], []⟩).1.length = 1 :=
  ⟨by decide, by decide, by decide, by decide,
    (predict_spec (fun q => q) (fun _ => ([], [])) (fun _ => [[1, 2, 3]]) Model.make
      ⟨[[0, 0, 0]], [[0, 0, 0]], [[0]], [], []⟩ 1
      (by decide) (by decide) (by decide) (by decide) (by decide) (by decide)).2.1⟩

/-- C8: for an edge between world positions (0,0,0) and (3,4,0) (either
direction), the relative-world-position norm slot of the pre-normalization
edge feature vector (component index 3) equals 5, for any square-root
function that is exact at 25. -/
theorem edge_world_norm_is_five (sq : ℚ → ℚ) (h : sq 25 = 5)
    (mp tgt : List (List ℚ)) (nt : List (List ℕ)) (cells : List (List ℕ)) :
    ((edgeFeatures sq ⟨[[0, 0, 0], [3, 4, 0]], mp, nt, cells, tgt⟩ [0] [1]).getD 0 []).getD 3 0
      = 5 ∧
    ((edgeFeatures sq ⟨[[0, 0, 0], [3, 4, 0]], mp, nt, cells, tgt⟩ [1] [0]).getD 0 []).getD 3 0
      = 5 := by
  constructor <;> norm_num [edgeFeatures, gather, vsub, rowNorm, sumSq, h]

/-- C8 witness: instantiated at the exact rational square root. -/
theorem edge_world_norm_is_five_witness :
    Rat.sqrt 25 = 5 ∧
    ((edgeFeatures Rat.sqrt ⟨[[0, 0, 0], [3, 4, 0]], [], [], [], []⟩ [0] [1]).getD 0 []).getD 3 0
      = 5 :=
  ⟨by norm_num [Rat.sqrt],
    (edge_world_norm_is_five Rat.sqrt (by norm_num [Rat.sqrt]) [] [] [] []).1⟩

/-- C2: the loss is the mean, over exactly the nodes whose `node_type`
first column is NORMAL, of the per-node component-summed squared
difference between the normalized target displacement and the raw model
output; non-NORMAL nodes contribute no term, and when at least one NORMAL
node exists the result is the explicit sum-over-count mean. -/
theorem loss_is_masked_mean (sq : ℚ → ℚ) (t2e : List (List ℕ) → List ℕ × List ℕ)
    (learned : MultiGraph → List (List ℚ)) (m : Model) (inputs : Inputs) (n : ℕ)
    (hnt : inputs.node_type.length = n)
    (hw : inputs.world_pos.length = n)
    (ht : inputs.target_world_pos.length = n)
    (ho : (learned (Model.build_graph sq t2e m inputs true).1).length = n) :
    (Model.loss sq t2e learned m inputs).1 =
      reduceMean ((lossSpecNormalIndices inputs n).map
        (lossSpecError sq t2e learned m inputs)) ∧
    (lossSpecNormalIndices inputs n ≠ [] →
      (Model.loss sq t2e learned m inputs).1 =
        some (((lossSpecNormalIndices inputs n).map
            (lossSpecError sq t2e learned m inputs)).sum /
          ((lossSpecNormalIndices inputs n).map
            (lossSpecError sq t2e learned m inputs)).length)) := by
  have htd_len : (List.zipWith vsub inputs.target_world_pos inputs.world_pos).length = n := by
    simp [List.length_zipWith, ht, hw]
  have hTN : (((Model.build_graph sq t2e m inputs true).2.output_normalizer.forwardDefault sq
      (List.zipWith vsub inputs.target_world_pos inputs.world_pos)).1)
      = (List.zipWith vsub inputs.target_world_pos inputs.world_pos).map
          ((m.output_normalizer.accumulate
            (List.zipWith vsub inputs.target_world_pos inputs.world_pos)).normalizeRow sq) :=
    rfl
  have hTN_len : (((Model.build_graph sq t2e m inputs true).2.output_normalizer.forwardDefault sq
      (List.zipWith vsub inputs.target_world_pos inputs.world_pos)).1).length = n := by
    rw [hTN]; simpa using htd_len
  have hmain : (Model.loss sq t2e learned m inputs).1 =
      reduceMean ((lossSpecNormalIndices inputs n).map
        (lossSpecError sq t2e learned m inputs)) := by
    show reduceMean (booleanMask
        (List.zipWith (fun t o => sumSq (vsub t o))
          (((Model.build_graph sq t2e m inputs true).2.output_normalizer.forwardDefault sq
              (List.zipWith vsub inputs.target_world_pos inputs.world_pos)).1)
          (learned (Model.build_graph sq t2e m inputs true).1))
        (inputs.node_type.map (fun r => r.headD 0 == NodeTypeNORMAL))) = _
    congr 1
    rw [booleanMask_eq_filter_range]
    have herr : (List.zipWith (fun t o => sumSq (vsub t o))
        (((Model.build_graph sq t2e m inputs true).2.output_normalizer.forwardDefault sq
            (List.zipWith vsub inputs.target_world_pos inputs.world_pos)).1)
        (learned (Model.build_graph sq t2e m inputs true).1)).length = n := by
      simp [List.length_zipWith, hTN_len, ho]
    have hml : (inputs.node_type.map (fun r => r.headD 0 == NodeTypeNORMAL)).length = n := by
      simpa using hnt
    rw [herr, hml, Nat.min_self]
    have hfc : ∀ i ∈ List.range n,
        ((inputs.node_type.map (fun r => r.headD 0 == NodeTypeNORMAL)).getD i false)
          = ((inputs.node_type.getD i []).headD 0 == NodeTypeNORMAL) := by
      intro i hi
      have hilt : i < inputs.node_type.length := by rw [hnt]; exact List.mem_range.mp hi
      rw [getD_map _ _ i hilt []]
    unfold lossSpecNormalIndices
    rw [List.filter_congr hfc]
    refine List.map_congr_left ?_
    intro i hi
    have hin : i < n := List.mem_range.mp (List.mem_of_mem_filter hi)
    rw [getD_zipWith _ _ _ i (by rw [hTN_len]; exact hin) (by rw [ho]; exact hin) [] [] 0,
      hTN, getD_map _ _ i (by rw [htd_len]; exact hin) [],
      getD_zipWith vsub _ _ i (by rw [ht]; exact hin) (by rw [hw]; exact hin) [] [] []]
    rfl
  refine ⟨hmain, fun hne => ?_⟩
  have hne' : (lossSpecNormalIndices inputs n).map
      (lossSpecError sq t2e learned m inputs) ≠ [] := by
    simpa using hne
  rw [hmain]
  unfold reduceMean
  rw [if_neg (by simpa [List.isEmpty_iff] using hne')]

/-- C2 witness: two nodes, one NORMAL and one not, with concrete state,
converter and learned model. -/
theorem loss_is_masked_mean_witness :
    ([[0], [1]] : List (List ℕ)).length = 2 ∧
    ([[0, 0, 0], [1, 0, 0]] : List (List ℚ)).length = 2 ∧
    ([[0, 1, 0], [1, 0, 1]] : List (List ℚ)).length = 2 ∧
    ((fun _ => [[1, 0, 0], [0, 2, 0]] : MultiGraph → List (List ℚ))
      (Model.build_graph (fun q => q) (fun _ => ([0, 1], [1, 0])) Model.make
        ⟨[[0, 0, 0], [1, 0, 0]], [[0, 0, 0], [1, 0, 0]], [[0], [1]], [[0, 1]],
          [[0, 1, 0], [1, 0, 1]]⟩ true).1).length = 2 ∧
    (Model.loss (fun q => q) (fun _ => ([0, 1], [1, 0]))
        (fun _ => [[1, 0, 0], [0, 2, 0]]) Model.make
        ⟨[[0, 0, 0], [1, 0, 0]], [[0, 0, 0], [1, 0, 0]], [[0], [1]], [[0, 1]],
          [[0, 1, 0], [1, 0, 1]]⟩).1 =
      reduceMean ((lossSpecNormalIndices
          ⟨[[0, 0, 0], [1, 0, 0]], [[0, 0, 0], [1, 0, 0]], [[0], [1]], [[0, 1]],
            [[0, 1, 0], [1, 0, 1]]⟩ 2).map
        (lossSpecError (fun q => q) (fun _ => ([0, 1], [1, 0]))
          (fun _ => [[1, 0, 0], [0, 2, 0]]) Model.make
          ⟨[[0, 0, 0], [1, 0, 0]], [[0, 0, 0], [1, 0, 0]], [[0], [1]], [[0, 1]],
            [[0, 1, 0], [1, 0, 1]]⟩)) :=
  ⟨by decide, by decide, by decide, by decide,
    (loss_is_masked_mean (fun q => q) (fun _ => ([0, 1], [1, 0]))
      (fun _ => [[1, 0, 0], [0, 2, 0]]) Model.make
      ⟨[[0, 0, 0], [1, 0, 0]], [[0, 0, 0], [1, 0, 0]], [[0], [1]], [[0, 1]],
        [[0, 1, 0], [1, 0, 1]]⟩ 2
      (by decide) (by decide) (by decide) (by decide)).1⟩

end ClothModel
